import Mathlib

set_option autoImplicit false
set_option maxHeartbeats 1000000

/- Shallow embedding of the price-extraction, retry, pagination, enrichment and
   classification logic of src/data.py (Pokemon TCG set explorer).

   Python values are modelled by the inductive type `Value`; Python floats are
   modelled by exact rationals (the numeric model is exact: machine rounding,
   infinities and overflow of IEEE doubles are outside the model), Python dicts
   by ordered association lists with string keys (the program only ever builds
   dicts with string keys), and Python None by `Value.vNone`. -/

inductive Value where
  | vNone : Value
  | vBool : Bool → Value
  | vInt : Int → Value
  | vFloat : ℚ → Value
  | vStr : String → Value
  | vList : List Value → Value
  | vDict : List (String × Value) → Value

/-- Python truthiness of a value (`if x:`). -/
def Value.truthy : Value → Bool
  | .vNone => false
  | .vBool b => b
  | .vInt n => n != 0
  | .vFloat q => q != 0
  | .vStr s => s != ""
  | .vList xs => !xs.isEmpty
  | .vDict kvs => !kvs.isEmpty

/-- Numeric view of a value, as in Python where bool is a subtype of int. -/
def numQ : Value → Option ℚ
  | .vBool b => some (if b then 1 else 0)
  | .vInt n => some ((n : ℚ))
  | .vFloat q => some q
  | _ => Option.none

mutual

/-- Python equality (`==`) on values: numeric kinds compare by value
    (so 1 == 1.0 == True); containers compare componentwise. Python dict
    equality ignores order; the program only ever compares scalar keys, so the
    order-sensitive approximation below is only exercised on scalars. -/
def Value.beq : Value → Value → Bool
  | .vNone, .vNone => true
  | .vBool a, .vBool b => a == b
  | .vBool a, .vInt n => (if a then (1 : Int) else 0) == n
  | .vBool a, .vFloat q => (if a then (1 : ℚ) else 0) == q
  | .vInt n, .vBool b => n == (if b then (1 : Int) else 0)
  | .vInt m, .vInt n => m == n
  | .vInt m, .vFloat q => ((m : ℚ)) == q
  | .vFloat q, .vBool b => q == (if b then (1 : ℚ) else 0)
  | .vFloat q, .vInt n => q == ((n : ℚ))
  | .vFloat p, .vFloat q => p == q
  | .vStr s, .vStr t => s == t
  | .vList xs, .vList ys => Value.beqList xs ys
  | .vDict xs, .vDict ys => Value.beqDict xs ys
  | _, _ => false

/-- Componentwise Python equality of lists. -/
def Value.beqList : List Value → List Value → Bool
  | [], [] => true
  | x :: xs, y :: ys => Value.beq x y && Value.beqList xs ys
  | _, _ => false

/-- Componentwise Python equality of dict entry lists. -/
def Value.beqDict : List (String × Value) → List (String × Value) → Bool
  | [], [] => true
  | (k, x) :: xs, (l, y) :: ys => k == l && Value.beq x y && Value.beqDict xs ys
  | _, _ => false

end

/-- Lookup in a string-keyed dict (`d.get(k)` without default). -/
def dget : List (String × Value) → String → Option Value
  | [], _ => Option.none
  | (k, v) :: rest, key => if k = key then Option.some v else dget rest key

/-- Update / insert a key in a string-keyed dict (`d[k] = v`). -/
def dset : List (String × Value) → String → Value → List (String × Value)
  | [], key, v => [(key, v)]
  | (k, w) :: rest, key, v =>
    if k = key then (key, v) :: rest else (k, w) :: dset rest key v

/-- Remove a key from a dict (`df.drop(columns=[k], errors=ignore)`). -/
def dropKey : List (String × Value) → String → List (String × Value)
  | [], _ => []
  | (k, w) :: rest, key =>
    if k = key then dropKey rest key else (k, w) :: dropKey rest key

/-- `row.get(k, d)` on a record; on a non-mapping row the default is produced
    (pandas rows behave as mappings; non-mapping rows do not occur in the
    pipeline, which builds every record as a dict). -/
def pyGet (r : Value) (k : String) (d : Value) : Value :=
  match r with
  | .vDict kvs => (dget kvs k).getD d
  | _ => d

/-- Set a field on a record (`df[col] = ...` row by row). Non-mapping rows are
    returned unchanged (they do not occur in the pipeline). -/
def vset (r : Value) (k : String) (v : Value) : Value :=
  match r with
  | .vDict kvs => .vDict (dset kvs k v)
  | _ => r

/-- Drop a field of a record. -/
def vdrop (r : Value) (k : String) : Value :=
  match r with
  | .vDict kvs => .vDict (dropKey kvs k)
  | _ => r

/-- Lookup in a Value-keyed dict (the id-keyed lookups of the enrichment pass),
    using Python equality on keys. -/
def lookGet {α : Type} : List (Value × α) → Value → Option α
  | [], _ => Option.none
  | (k, v) :: rest, key => if Value.beq k key then Option.some v else lookGet rest key

/-- Update / insert in a Value-keyed dict (`lookup[card_id] = x`). -/
def lookSet {α : Type} : List (Value × α) → Value → α → List (Value × α)
  | [], key, v => [(key, v)]
  | (k, w) :: rest, key, v =>
    if Value.beq k key then (k, v) :: rest else (k, w) :: lookSet rest key v

/- ============================================================
   float() string parsing (used by _try_float on string inputs).
   Models finite decimal literals with optional sign, fraction and exponent;
   the special literals inf and nan are outside the exact numeric model. -/

def digitVal (c : Char) : Nat := c.toNat - 48

def digitsVal (cs : List Char) : Nat := cs.foldl (fun a c => a * 10 + digitVal c) 0

def spanDigits : List Char → (List Char × List Char)
  | [] => ([], [])
  | c :: cs =>
    if c.isDigit then
      let p := spanDigits cs
      (c :: p.1, p.2)
    else ([], c :: cs)

/-- Ten to a natural power, by recursion (kernel-computable on ℚ). -/
def tenPow : Nat → ℚ
  | 0 => 1
  | n + 1 => 10 * tenPow n

def parseExpDigits (base : ℚ) (pos : Bool) (ds : List Char) : Option ℚ :=
  if ds.isEmpty then Option.none
  else if ds.all (fun c => c.isDigit) then
    some (if pos then base * tenPow (digitsVal ds) else base / tenPow (digitsVal ds))
  else Option.none

def parseExpTail (base : ℚ) : List Char → Option ℚ
  | '+' :: ds => parseExpDigits base true ds
  | '-' :: ds => parseExpDigits base false ds
  | ds => parseExpDigits base true ds

def parseExpPart (base : ℚ) : List Char → Option ℚ
  | [] => some base
  | 'e' :: cs => parseExpTail base cs
  | 'E' :: cs => parseExpTail base cs
  | _ => Option.none

def parseUnsigned (cs : List Char) : Option ℚ :=
  let ip := spanDigits cs
  match ip.2 with
  | '.' :: rest2 =>
    let fp := spanDigits rest2
    if ip.1.isEmpty ∧ fp.1.isEmpty then Option.none
    else
      parseExpPart ((digitsVal ip.1 : ℚ) + (digitsVal fp.1 : ℚ) / tenPow fp.1.length) fp.2
  | rest =>
    if ip.1.isEmpty then Option.none
    else parseExpPart ((digitsVal ip.1 : ℚ)) rest

/-- Strip surrounding whitespace from a character list (str.strip). -/
def stripChars (cs : List Char) : List Char :=
  ((cs.dropWhile Char.isWhitespace).reverse.dropWhile Char.isWhitespace).reverse

/-- Python float(s) on a string: strip surrounding whitespace, then a signed
    finite decimal literal; anything else raises ValueError (modelled none). -/
def pyParseFloat (s : String) : Option ℚ :=
  match stripChars s.data with
  | '+' :: cs => parseUnsigned cs
  | '-' :: cs => (parseUnsigned cs).map (fun q => -q)
  | cs => parseUnsigned cs

/- ============================================================
   PRICE EXTRACTION — data.py lines 379-451. -/

/-- data.py 379-387: safely convert a value to float, returning 0.0 on
    failure, and clamping non-positive results to 0.0. -/
def _try_float (val : Value) : ℚ :=
  match val with
  | .vNone => 0
  | .vBool b => if b then 1 else 0
  | .vInt n => if 0 < (n : ℚ) then (n : ℚ) else 0
  | .vFloat q => if 0 < q then q else 0
  | .vStr s =>
    match pyParseFloat s with
    | Option.some q => if 0 < q then q else 0
    | Option.none => 0
  | .vList _ => 0
  | .vDict _ => 0

/-- data.py 392-393: the fixed priority order of price field names. -/
def priceKeys : List String :=
  ["market_price", "mid_price", "low_price", "high_price",
   "market", "mid", "low", "high", "avg", "trend"]

/-- Scan of the key priority list used by _best_price_from_dict. -/
def bestPriceGo (d : List (String × Value)) : List String → ℚ
  | [] => 0
  | k :: ks =>
    if 0 < _try_float ((dget d k).getD Value.vNone) then
      _try_float ((dget d k).getD Value.vNone)
    else bestPriceGo d ks

/-- data.py 390-397: try multiple price field names in priority order. -/
def _best_price_from_dict (d : List (String × Value)) : ℚ := bestPriceGo d priceKeys

/-- The repeated source pattern: scan a list of entries, take
    _best_price_from_dict of each dict entry, first positive value wins
    (data.py 408-412, 423-427, 434-438). -/
def scanDictList : List Value → ℚ
  | [] => 0
  | .vDict d :: rest =>
    if 0 < _best_price_from_dict d then _best_price_from_dict d else scanDictList rest
  | _ :: rest => scanDictList rest

/-- Python str.lower (ASCII). -/
def pyLower (s : String) : String := String.mk (s.data.map Char.toLower)

/-- Whether the substring price occurs in the lowercased key (data.py 443). -/
def priceInKey (k : String) : Bool := ((pyLower k).splitOn "price").length > 1

/-- data.py 441-444: scan all top-level fields for a positive numeric value
    whose key mentions price (in Python, bool is an int, so True qualifies). -/
def topScan : List (String × Value) → ℚ
  | [] => 0
  | (k, v) :: rest =>
    match v with
    | .vInt n => if 0 < (n : ℚ) ∧ priceInKey k = true then (n : ℚ) else topScan rest
    | .vFloat q => if 0 < q ∧ priceInKey k = true then q else topScan rest
    | .vBool b => if b = true ∧ priceInKey k = true then 1 else topScan rest
    | _ => topScan rest

/-- data.py 405-412, branch 1: the TCG_Prices list, when truthy and a list. -/
def tcgPricesVal (kvs : List (String × Value)) : ℚ :=
  match (dget kvs "TCG_Prices").getD Value.vNone with
  | .vList xs => if (Value.vList xs).truthy then scanDictList xs else 0
  | _ => 0

/-- data.py 414-427, branch 2: the tcgplayer dict; its prices entry may be a
    dict or a list of dicts. -/
def tcgplayerVal (kvs : List (String × Value)) : ℚ :=
  match (dget kvs "tcgplayer").getD Value.vNone with
  | .vDict t =>
    if (Value.vDict t).truthy then
      match (dget t "prices").getD (Value.vDict []) with
      | .vDict pd => _best_price_from_dict pd
      | .vList ps => scanDictList ps
      | _ => 0
    else 0
  | _ => 0

/-- data.py 429-438, branch 3: the cardmarket dict; only a list-shaped prices
    entry is scanned. -/
def cardmarketVal (kvs : List (String × Value)) : ℚ :=
  match (dget kvs "cardmarket").getD Value.vNone with
  | .vDict c =>
    if (Value.vDict c).truthy then
      match (dget c "prices").getD (Value.vList []) with
      | .vList ps => scanDictList ps
      | _ => 0
    else 0
  | _ => 0

/-- data.py 400-446: extract the best available market price from a card
    record; non-mapping inputs yield 0.0 (line 402-403). -/
def extract_price_from_card (card : Value) : ℚ :=
  match card with
  | .vDict kvs =>
    if 0 < tcgPricesVal kvs then tcgPricesVal kvs
    else if 0 < tcgplayerVal kvs then tcgplayerVal kvs
    else if 0 < cardmarketVal kvs then cardmarketVal kvs
    else topScan kvs
  | _ => 0

/-- data.py 449-451: price extraction across a batch. -/
def extract_price_series (df : List Value) : List ℚ := df.map extract_price_from_card

/-- Sum of extracted prices of a batch (the trigger quantity at line 177). -/
def sumPrices (df : List Value) : ℚ := (extract_price_series df).sum

/-- Numeric conversion performed by float() inside _try_float: the values the
    source treats as numeric (numbers, bools, numeric strings). -/
def pyFloatVal : Value → Option ℚ
  | .vBool b => some (if b then 1 else 0)
  | .vInt n => some ((n : ℚ))
  | .vFloat q => some q
  | .vStr s => pyParseFloat s
  | _ => Option.none

/-- First positive entry of a list of rationals, 0 when there is none. -/
def firstPositive : List ℚ → ℚ
  | [] => 0
  | q :: qs => if 0 < q then q else firstPositive qs

/- ============================================================
   Basic sign facts about the extraction pipeline. -/

theorem try_float_nonneg (v : Value) : 0 ≤ _try_float v := by
  cases v with
  | vNone => simp [_try_float]
  | vBool b => cases b <;> simp [_try_float]
  | vInt n =>
    simp only [_try_float]
    split
    · exact le_of_lt (by assumption)
    · exact le_refl 0
  | vFloat q =>
    simp only [_try_float]
    split
    · exact le_of_lt (by assumption)
    · exact le_refl 0
  | vStr s =>
    simp only [_try_float]
    cases hps : pyParseFloat s with
    | none => simp
    | some q =>
      simp only []
      split
      · exact le_of_lt (by assumption)
      · exact le_refl 0
  | vList xs => simp [_try_float]
  | vDict kvs => simp [_try_float]

theorem bestPriceGo_nonneg (d : List (String × Value)) (ks : List String) :
    0 ≤ bestPriceGo d ks := by
  induction ks with
  | nil => simp [bestPriceGo]
  | cons k ks ih =>
    simp only [bestPriceGo]
    split
    · exact le_of_lt (by assumption)
    · exact ih

theorem best_price_from_dict_nonneg (d : List (String × Value)) :
    0 ≤ _best_price_from_dict d := bestPriceGo_nonneg d priceKeys

theorem scanDictList_nonneg (xs : List Value) : 0 ≤ scanDictList xs := by
  induction xs with
  | nil => simp [scanDictList]
  | cons x rest ih =>
    cases x with
    | vDict d =>
      simp only [scanDictList]
      split
      · exact le_of_lt (by assumption)
      · exact ih
    | vNone => exact ih
    | vBool b => exact ih
    | vInt n => exact ih
    | vFloat q => exact ih
    | vStr s => exact ih
    | vList ys => exact ih

theorem topScan_nonneg (kvs : List (String × Value)) : 0 ≤ topScan kvs := by
  induction kvs with
  | nil => simp [topScan]
  | cons kv rest ih =>
    obtain ⟨k, v⟩ := kv
    cases v with
    | vInt n =>
      simp only [topScan]
      split
      · exact le_of_lt (by exact (by assumption : 0 < (n : ℚ) ∧ _).1)
      · exact ih
    | vFloat q =>
      simp only [topScan]
      split
      · exact le_of_lt (by exact (by assumption : 0 < q ∧ _).1)
      · exact ih
    | vBool b =>
      simp only [topScan]
      split
      · exact le_of_lt one_pos
      · exact ih
    | vNone => exact ih
    | vStr s => exact ih
    | vList ys => exact ih
    | vDict d => exact ih

theorem tcgPricesVal_nonneg (kvs : List (String × Value)) : 0 ≤ tcgPricesVal kvs := by
  simp only [tcgPricesVal]
  split
  · split
    · exact scanDictList_nonneg _
    · exact le_refl 0
  · exact le_refl 0

theorem tcgplayerVal_nonneg (kvs : List (String × Value)) : 0 ≤ tcgplayerVal kvs := by
  simp only [tcgplayerVal]
  split
  · split
    · split
      · exact best_price_from_dict_nonneg _
      · exact scanDictList_nonneg _
      · exact le_refl 0
    · exact le_refl 0
  · exact le_refl 0

theorem cardmarketVal_nonneg (kvs : List (String × Value)) : 0 ≤ cardmarketVal kvs := by
  simp only [cardmarketVal]
  split
  · split
    · split
      · exact scanDictList_nonneg _
      · exact le_refl 0
    · exact le_refl 0
  · exact le_refl 0

/-- Claim C4: for every input value r — mapping or not, with arbitrarily
    malformed, wrongly typed, negative or null price fields — the extraction
    extract_price_from_card r is at least 0. In the model the function is
    total by construction, mirroring the source, whose conversion helper
    catches and suppresses conversion errors and yields 0.0. -/
theorem extract_price_from_card_nonneg (card : Value) :
    0 ≤ extract_price_from_card card := by
  cases card with
  | vDict kvs =>
    simp only [extract_price_from_card]
    split
    · exact le_of_lt (by assumption)
    · split
      · exact le_of_lt (by assumption)
      · split
        · exact le_of_lt (by assumption)
        · exact topScan_nonneg kvs
  | vNone => exact le_refl 0
  | vBool b => exact le_refl 0
  | vInt n => exact le_refl 0
  | vFloat q => exact le_refl 0
  | vStr s => exact le_refl 0
  | vList xs => exact le_refl 0

/- ============================================================
   Example records for the concrete claims. -/

/-- The record of claim C5: TCG_Prices carries market_price=5 while
    tcgplayer.prices carries market=9. -/
def exC5kvs : List (String × Value) :=
  [("TCG_Prices", .vList [.vDict [("market_price", .vInt 5)]]),
   ("tcgplayer", .vDict [("prices", .vDict [("market", .vInt 9)])])]

def exC5 : Value := Value.vDict exC5kvs

/-- The record of claim C6: only price fields are market=0, mid=null, low=-3. -/
def exC6 : Value :=
  .vDict [("tcgplayer", .vDict [("prices",
    .vDict [("market", .vInt 0), ("mid", .vNone), ("low", .vInt (-3))])])]

/-- Claim C5: on a record holding both TCG_Prices with market_price=5 and
    tcgplayer.prices.market=9 the extraction returns 5.0; within every pricing
    mapping the fields are tried in the fixed order market_price, mid_price,
    low_price, high_price, market, mid, low, high, avg, trend with the first
    positive value winning; and a positive TCG_Prices scan takes strict
    priority, deciding the result regardless of any tcgplayer substructure. -/
theorem extract_price_priority_order :
    extract_price_from_card exC5 = 5 ∧
    (∀ d : List (String × Value),
      _best_price_from_dict d =
        firstPositive (priceKeys.map (fun k => _try_float ((dget d k).getD Value.vNone)))) ∧
    (∀ kvs : List (String × Value), 0 < tcgPricesVal kvs →
      extract_price_from_card (Value.vDict kvs) = tcgPricesVal kvs) := by
  refine ⟨by decide, ?_, ?_⟩
  · intro d
    show bestPriceGo d priceKeys = _
    generalize priceKeys = ks
    induction ks with
    | nil => simp [bestPriceGo, firstPositive]
    | cons k ks ih => simp only [bestPriceGo, firstPositive, List.map, ih]
  · intro kvs h
    simp only [extract_price_from_card, if_pos h]

/-- Witness for C5: the hypothesis of the priority conjunct is discharged on
    the concrete record exC5. -/
theorem extract_price_priority_order_witness :
    0 < tcgPricesVal exC5kvs ∧
    extract_price_from_card (Value.vDict exC5kvs) = tcgPricesVal exC5kvs :=
  ⟨by decide, extract_price_priority_order.2.2 exC5kvs (by decide)⟩

/-- Claim C6: a price field counts as present only when it converts to a
    positive number: null, non-positive ints and floats, strings that do not
    parse as numbers, and container values all yield 0 from _try_float, so the
    record whose only price fields are market=0, mid=null, low=-3 extracts to
    0.0; conversely a positive _try_float value always comes from a value the
    source converts to that positive number. -/
theorem price_present_filtering :
    extract_price_from_card exC6 = 0 ∧
    _try_float Value.vNone = 0 ∧
    (∀ n : Int, (n : ℚ) ≤ 0 → _try_float (Value.vInt n) = 0) ∧
    (∀ q : ℚ, q ≤ 0 → _try_float (Value.vFloat q) = 0) ∧
    (∀ s : String, pyParseFloat s = Option.none → _try_float (Value.vStr s) = 0) ∧
    (∀ xs : List Value, _try_float (Value.vList xs) = 0) ∧
    (∀ kvs : List (String × Value), _try_float (Value.vDict kvs) = 0) ∧
    (∀ v : Value, 0 < _try_float v → pyFloatVal v = some (_try_float v)) := by
  refine ⟨by decide, rfl, ?_, ?_, ?_, fun xs => rfl, fun kvs => rfl, ?_⟩
  · intro n hn
    simp only [_try_float, if_neg (not_lt.mpr hn)]
  · intro q hq
    simp only [_try_float, if_neg (not_lt.mpr hq)]
  · intro s hs
    simp only [_try_float, hs]
  · intro v hv
    cases v with
    | vNone => exact absurd hv (by simp [_try_float])
    | vBool b =>
      cases b with
      | true => simp [_try_float, pyFloatVal]
      | false => exact absurd hv (by simp [_try_float])
    | vInt n =>
      simp only [_try_float] at hv ⊢
      simp only [pyFloatVal]
      split at hv
      · simp only [if_pos (by assumption)]
      · exact absurd hv (by simp)
    | vFloat q =>
      simp only [_try_float] at hv ⊢
      simp only [pyFloatVal]
      split at hv
      · simp only [if_pos (by assumption)]
      · exact absurd hv (by simp)
    | vStr s =>
      cases hps : pyParseFloat s with
      | none => exact absurd hv (by simp [_try_float, hps])
      | some q =>
        have h1 : _try_float (Value.vStr s) = if 0 < q then q else 0 := by
          simp [_try_float, hps]
        rw [h1] at hv ⊢
        simp only [pyFloatVal, hps]
        split at hv
        · simp only [if_pos (by assumption)]
        · exact absurd hv (by simp)
    | vList xs => exact absurd hv (by simp [_try_float])
    | vDict kvs => exact absurd hv (by simp [_try_float])

/-- Witness for C6: the hypotheses are discharged at the concrete inputs -3,
    -1/2, and the non-numeric string abc. -/
theorem price_present_filtering_witness :
    ((-3 : Int) : ℚ) ≤ 0 ∧ _try_float (Value.vInt (-3)) = 0 ∧
    pyParseFloat "abc" = Option.none ∧ _try_float (Value.vStr "abc") = 0 :=
  ⟨by norm_num, price_present_filtering.2.2.1 (-3) (by norm_num),
   by decide, price_present_filtering.2.2.2.2.1 "abc" (by decide)⟩

/- ============================================================
   RETRY POLICY — data.py lines 65-81 (retry_api_call).
   One invocation of the wrapped operation either raises (modelled by an
   error token) or returns a value; the wrapper loops over attempt indices.
   Backoff delays and toast notifications are purely observational. -/

/-- Outcome of one invocation of the wrapped operation. -/
inductive Attempt where
  | throwE : Nat → Attempt
  | ret : Value → Attempt

/-- Result of retry_api_call: an early non-None return, the final
    `return None`, or the re-raise of the last captured exception. -/
inductive RetryResult where
  | ok : Value → RetryResult
  | retNone : RetryResult
  | raised : Nat → RetryResult

/-- The `result is not None` test of line 71, as a discriminator. -/
def Value.isNoneV : Value → Bool
  | .vNone => true
  | _ => false

/-- The loop of data.py 68-78: try each attempt; a non-None result returns
    immediately; an exception is captured as last_exception; a None result
    just continues. After the loop (lines 79-81) the last captured exception
    is re-raised, else None is returned. -/
def retryGo (func : Nat → Attempt) : Nat → Nat → Option Nat → RetryResult
  | 0, _, lastE =>
    match lastE with
    | some e => .raised e
    | Option.none => .retNone
  | n + 1, attempt, lastE =>
    match func attempt with
    | .ret v => if v.isNoneV then retryGo func n (attempt + 1) lastE else .ok v
    | .throwE e => retryGo func n (attempt + 1) (some e)

/-- data.py 65-81: retry an operation max_retries times. -/
def retry_api_call (func : Nat → Attempt) (max_retries : Nat) : RetryResult :=
  retryGo func max_retries 0 Option.none

/-- An attempt that makes the loop continue: a None return or an exception. -/
def isFailAttempt : Attempt → Bool
  | .ret v => v.isNoneV
  | .throwE _ => true

/-- The exception captured last over a window of attempts, carried exactly as
    the loop carries last_exception. -/
def lastThrowFrom (func : Nat → Attempt) : Nat → Nat → Option Nat → Option Nat
  | 0, _, le => le
  | n + 1, attempt, le =>
    match func attempt with
    | .throwE e => lastThrowFrom func n (attempt + 1) (some e)
    | .ret _ => lastThrowFrom func n (attempt + 1) le

def lastThrow (func : Nat → Attempt) (n : Nat) : Option Nat :=
  lastThrowFrom func n 0 Option.none

theorem retryGo_ok_of_first (func : Nat → Attempt) (v : Value) (hv : v.isNoneV = false) :
    ∀ (i m s : Nat) (le : Option Nat),
      (∀ j, j < i → isFailAttempt (func (s + j)) = true) →
      i < m → func (s + i) = Attempt.ret v →
      retryGo func m s le = RetryResult.ok v := by
  intro i
  induction i with
  | zero =>
    intro m s le _ him hf
    cases m with
    | zero => omega
    | succ m' =>
      rw [Nat.add_zero] at hf
      simp only [retryGo, hf, hv]
      simp
  | succ i ih =>
    intro m s le hfail him hf
    cases m with
    | zero => omega
    | succ m' =>
      have h0 : isFailAttempt (func s) = true := by
        have := hfail 0 (Nat.succ_pos i)
        rwa [Nat.add_zero] at this
      cases hfs : func s with
      | ret w =>
        have hw : w.isNoneV = true := by
          rw [hfs] at h0
          exact h0
        simp only [retryGo, hfs, hw, if_pos]
        exact ih m' (s + 1) le
          (fun j hj => by
            have := hfail (j + 1) (by omega)
            rwa [show s + (j + 1) = s + 1 + j by omega] at this)
          (by omega)
          (by rwa [show s + 1 + i = s + (i + 1) by omega])
      | throwE e =>
        simp only [retryGo, hfs]
        exact ih m' (s + 1) (some e)
          (fun j hj => by
            have := hfail (j + 1) (by omega)
            rwa [show s + (j + 1) = s + 1 + j by omega] at this)
          (by omega)
          (by rwa [show s + 1 + i = s + (i + 1) by omega])

theorem retryGo_exhaust (func : Nat → Attempt) :
    ∀ (m s : Nat) (le : Option Nat),
      (∀ i, i < m → isFailAttempt (func (s + i)) = true) →
      retryGo func m s le =
        match lastThrowFrom func m s le with
        | some e => RetryResult.raised e
        | Option.none => RetryResult.retNone := by
  intro m
  induction m with
  | zero =>
    intro s le _
    cases le <;> rfl
  | succ m' ih =>
    intro s le hfail
    have h0 : isFailAttempt (func s) = true := by
      have := hfail 0 (Nat.succ_pos m')
      rwa [Nat.add_zero] at this
    have hshift : ∀ i, i < m' → isFailAttempt (func (s + 1 + i)) = true := by
      intro i hi
      have := hfail (i + 1) (by omega)
      rwa [show s + (i + 1) = s + 1 + i by omega] at this
    cases hfs : func s with
    | ret w =>
      have hw : w.isNoneV = true := by
        rw [hfs] at h0
        exact h0
      simp only [retryGo, lastThrowFrom, hfs, hw, if_pos]
      exact ih (s + 1) le hshift
    | throwE e =>
      simp only [retryGo, lastThrowFrom, hfs]
      exact ih (s + 1) (some e) hshift

theorem lastThrowFrom_none (func : Nat → Attempt) :
    ∀ (m s : Nat), (∀ i, i < m → ∃ v, func (s + i) = Attempt.ret v) →
      lastThrowFrom func m s Option.none = Option.none := by
  intro m
  induction m with
  | zero => intro s _; rfl
  | succ m' ih =>
    intro s hall
    obtain ⟨v, hv⟩ := hall 0 (Nat.succ_pos m')
    rw [Nat.add_zero] at hv
    simp only [lastThrowFrom, hv]
    exact ih (s + 1) (fun i hi => by
      obtain ⟨w, hw⟩ := hall (i + 1) (by omega)
      exact ⟨w, by rwa [show s + (i + 1) = s + 1 + i by omega] at hw⟩)

/-- Claim C2 (amended): any thrown error or a None return triggers a retry,
    while any non-None result — even a falsy one such as an empty list — is
    returned immediately as success; on exhaustion of max_retries the last
    captured error is re-raised when some attempt threw, and otherwise None is
    returned. -/
theorem retry_api_call_amended (func : Nat → Attempt) (n : Nat) :
    (∀ (i : Nat) (v : Value), v.isNoneV = false →
      (∀ j, j < i → isFailAttempt (func j) = true) →
      i < n → func i = Attempt.ret v →
      retry_api_call func n = RetryResult.ok v) ∧
    ((∀ i, i < n → isFailAttempt (func i) = true) →
      retry_api_call func n =
        match lastThrow func n with
        | some e => RetryResult.raised e
        | Option.none => RetryResult.retNone) ∧
    ((∀ i, i < n → func i = Attempt.ret Value.vNone) →
      retry_api_call func n = RetryResult.retNone) := by
  refine ⟨?_, ?_, ?_⟩
  · intro i v hv hfail him hf
    exact retryGo_ok_of_first func v hv i n 0 Option.none
      (fun j hj => by simpa using hfail j hj) him (by simpa using hf)
  · intro hfail
    exact retryGo_exhaust func n 0 Option.none (fun i hi => by simpa using hfail i hi)
  · intro hall
    have h1 := retryGo_exhaust func n 0 Option.none
      (fun i hi => by
        have hx := hall i hi
        simp only [Nat.zero_add]
        rw [hx]
        rfl)
    have h2 : lastThrowFrom func n 0 Option.none = Option.none :=
      lastThrowFrom_none func n 0 (fun i hi => ⟨Value.vNone, by simpa using hall i hi⟩)
    rw [retry_api_call, h1, h2]

/-- Witness for C2 (amended): two attempts that both throw error 3 exhaust the
    retries and re-raise error 3. -/
theorem retry_api_call_amended_witness :
    (∀ i, i < 2 → isFailAttempt ((fun _ => Attempt.throwE 3) i) = true) ∧
    retry_api_call (fun _ => Attempt.throwE 3) 2 = RetryResult.raised 3 :=
  ⟨fun _ _ => rfl,
   ((retry_api_call_amended (fun _ => Attempt.throwE 3) 2).2.1 (fun _ _ => rfl))⟩

/-- The attempt sequence of the C2 counterexample: the first attempt returns
    an empty list (falsy but not None), every later attempt throws error 7. -/
def exRetryFunc : Nat → Attempt :=
  fun i => if i = 0 then Attempt.ret (Value.vList []) else Attempt.throwE 7

/-- Counterexample to claim C2 as stated: the claim would have a falsy return
    (the empty list) trigger a retry, in which case the later throwing
    attempts would surface error 7; the source instead returns the empty list
    as success on the first attempt because it only tests `is not None`. -/
theorem retry_falsy_counterexample :
    retry_api_call exRetryFunc 3 = RetryResult.ok (Value.vList []) ∧
    Value.truthy (Value.vList []) = false ∧
    exRetryFunc 1 = Attempt.throwE 7 :=
  ⟨rfl, rfl, rfl⟩

/- ============================================================
   PRICE RECONCILIATION / ENRICHMENT — data.py lines 189-249.
   The secondary search (search_cards) is an external HTTP fetch; its result
   list is a parameter of the model. -/

/-- data.py 199-206: build the price lookup id -> extractable price, keeping
    only truthy ids and positive prices (later rows overwrite earlier ones,
    as Python dict assignment does). -/
def price_lookup_of (search : List Value) : List (Value × ℚ) :=
  search.foldl
    (fun acc row =>
      if (pyGet row "id" (Value.vStr "")).truthy then
        if 0 < extract_price_from_card row then
          lookSet acc (pyGet row "id" (Value.vStr "")) (extract_price_from_card row)
        else acc
      else acc) []

/-- The guard of data.py 219-222: tcg is a truthy dict whose prices entry is
    a truthy dict or list. -/
def tcgEntryGuard (tcg : Value) : Bool :=
  match tcg with
  | .vDict t =>
    if (Value.vDict t).truthy then
      match (dget t "prices").getD (Value.vList []) with
      | .vDict pd => !pd.isEmpty
      | .vList ps => !ps.isEmpty
      | _ => false
    else false
  | _ => false

/-- data.py 212-222: the id -> tcgplayer lookup over the search results. -/
def tcg_lookup_of (search : List Value) : List (Value × Value) :=
  search.foldl
    (fun acc row =>
      if (pyGet row "id" (Value.vStr "")).truthy then
        if tcgEntryGuard (pyGet row "tcgplayer" Value.vNone) then
          lookSet acc (pyGet row "id" (Value.vStr "")) (pyGet row "tcgplayer" Value.vNone)
        else acc
      else acc) []

/-- The guard of data.py 223-224: cm is a truthy dict. -/
def cmEntryGuard (cm : Value) : Bool :=
  match cm with
  | .vDict c => !c.isEmpty
  | _ => false

/-- data.py 213-224: the id -> cardmarket lookup over the search results. -/
def cm_lookup_of (search : List Value) : List (Value × Value) :=
  search.foldl
    (fun acc row =>
      if (pyGet row "id" (Value.vStr "")).truthy then
        if cmEntryGuard (pyGet row "cardmarket" Value.vNone) then
          lookSet acc (pyGet row "id" (Value.vStr "")) (pyGet row "cardmarket" Value.vNone)
        else acc
      else acc) []

/-- data.py 227-234: keep the existing tcgplayer value when it is a truthy
    dict with a truthy prices entry, else fall back to the lookup entry for
    the row id, defaulting to the existing value. -/
def _merge_tcg (tcgL : List (Value × Value)) (row : Value) : Value :=
  match pyGet row "tcgplayer" Value.vNone with
  | .vDict e =>
    if ((Value.vDict e).truthy && ((dget e "prices").getD (Value.vList [])).truthy) = true then
      Value.vDict e
    else (lookGet tcgL (pyGet row "id" (Value.vStr ""))).getD (Value.vDict e)
  | v => (lookGet tcgL (pyGet row "id" (Value.vStr ""))).getD v

/-- data.py 236-238: the cardmarket value is taken from the lookup whenever
    the lookup holds the row id, overriding the existing value
    unconditionally; otherwise the existing value is kept. -/
def _merge_cm (cmL : List (Value × Value)) (row : Value) : Value :=
  (lookGet cmL (pyGet row "id" (Value.vStr ""))).getD (pyGet row "cardmarket" Value.vNone)

/-- data.py 189-249: merge search results into a batch by card id. An empty
    search result (line 196) or an empty price lookup (line 208) returns the
    batch unchanged; otherwise the tcgplayer column is rewritten first
    (line 240), then the cardmarket column (line 243). Exceptions cannot
    arise in the modelled fragment, matching the blanket handler at 247-249. -/
def _enrich_prices_via_search (df : List Value) (search_results : List Value) : List Value :=
  if search_results.isEmpty then df
  else if (price_lookup_of search_results).isEmpty then df
  else
    (df.map (fun r => vset r "tcgplayer" (_merge_tcg (tcg_lookup_of search_results) r))).map
      (fun r => vset r "cardmarket" (_merge_cm (cm_lookup_of search_results) r))

/-- The _price helper column added at data.py 176. -/
def withPriceCol (cards : List Value) : List Value :=
  cards.map (fun r => vset r "_price" (Value.vFloat (extract_price_from_card r)))

/-- Truthiness of the set name read at data.py 178 (false when the set
    envelope is not a mapping, in which case the read raises). -/
def setNameTruthy (set_info : Value) : Bool :=
  match set_info with
  | .vDict sk => ((dget sk "name").getD (Value.vStr "")).truthy
  | _ => false

/-- data.py 172-183: the post-pagination step of fetch_set_cards. The batch
    gets a _price column; when the extracted prices sum to zero, the set name
    is read (a non-mapping envelope raises, modelled Option.none) and, when
    the name is truthy, the enrichment pass runs on the search results for
    that name; the _price column is then dropped. When the sum is nonzero the
    batch is returned with the _price column still attached. The boolean
    records whether the search-based enrichment pass was invoked. -/
def postProcess (searchO : Value → List Value) (set_info : Value) (cards : List Value) :
    Option (List Value × Bool) :=
  if sumPrices cards = 0 then
    match set_info with
    | .vDict sk =>
      if ((dget sk "name").getD (Value.vStr "")).truthy then
        some
          (((_enrich_prices_via_search (withPriceCol cards)
              (searchO ((dget sk "name").getD (Value.vStr "")))).map
            (fun r => vdrop r "_price")), true)
      else
        some ((withPriceCol cards).map (fun r => vdrop r "_price"), false)
    | _ => Option.none
  else
    some (withPriceCol cards, false)

/- ============================================================
   Dictionary and lookup lemmas. -/

theorem dget_dset_self (kvs : List (String × Value)) (k : String) (v : Value) :
    dget (dset kvs k v) k = some v := by
  induction kvs with
  | nil => simp [dset, dget]
  | cons kv rest ih =>
    obtain ⟨k0, w⟩ := kv
    by_cases h : k0 = k
    · simp [dset, dget, h]
    · simp only [dset, if_neg h, dget]
      exact ih

theorem dget_dset_ne (kvs : List (String × Value)) (k k' : String) (v : Value)
    (h : k ≠ k') : dget (dset kvs k v) k' = dget kvs k' := by
  induction kvs with
  | nil => simp [dset, dget, h]
  | cons kv rest ih =>
    obtain ⟨k0, w⟩ := kv
    by_cases h0 : k0 = k
    · simp only [dset, if_pos h0, dget, if_neg h]
      rw [h0, if_neg h]
    · simp only [dset, if_neg h0, dget]
      by_cases h1 : k0 = k'
      · rw [if_pos h1, if_pos h1]
      · rw [if_neg h1, if_neg h1]
        exact ih

theorem dset_self (kvs : List (String × Value)) (k : String) (v : Value)
    (h : dget kvs k = some v) : dset kvs k v = kvs := by
  induction kvs with
  | nil => simp [dget] at h
  | cons kv rest ih =>
    obtain ⟨k0, w⟩ := kv
    by_cases h0 : k0 = k
    · simp only [dget, if_pos h0, Option.some.injEq] at h
      simp [dset, h0, h]
    · simp only [dget, if_neg h0] at h
      simp only [dset, if_neg h0]
      rw [ih h]

theorem pyGet_vset_self (kvs : List (String × Value)) (k : String) (v d : Value) :
    pyGet (vset (Value.vDict kvs) k v) k d = v := by
  simp [vset, pyGet, dget_dset_self]

theorem pyGet_vset_ne (r : Value) (k k' : String) (v d : Value) (h : k ≠ k') :
    pyGet (vset r k v) k' d = pyGet r k' d := by
  cases r <;> simp [vset, pyGet]
  rw [dget_dset_ne _ _ _ _ h]

theorem vset_self (kvs : List (String × Value)) (k : String) (v : Value)
    (h : dget kvs k = some v) : vset (Value.vDict kvs) k v = Value.vDict kvs := by
  simp [vset, dset_self kvs k v h]

theorem mem_lookSet {α : Type} (l : List (Value × α)) (k : Value) (v : α) (p : Value × α)
    (hp : p ∈ lookSet l k v) : p ∈ l ∨ p.2 = v := by
  induction l with
  | nil =>
    simp only [lookSet, List.mem_singleton] at hp
    exact Or.inr (by rw [hp])
  | cons q rest ih =>
    obtain ⟨k0, w⟩ := q
    by_cases h0 : Value.beq k0 k = true
    · simp only [lookSet, if_pos h0, List.mem_cons] at hp
      rcases hp with hp | hp
      · exact Or.inr (by rw [hp])
      · exact Or.inl (List.mem_cons_of_mem _ hp)
    · simp only [lookSet, if_neg h0, List.mem_cons] at hp
      rcases hp with hp | hp
      · exact Or.inl (by rw [hp]; exact List.mem_cons_self _ _)
      · rcases ih hp with h | h
        · exact Or.inl (List.mem_cons_of_mem _ h)
        · exact Or.inr h

theorem lookGet_mem {α : Type} (l : List (Value × α)) (key : Value) (v : α)
    (h : lookGet l key = some v) : ∃ k, (k, v) ∈ l := by
  induction l with
  | nil => simp [lookGet] at h
  | cons q rest ih =>
    obtain ⟨k0, w⟩ := q
    by_cases h0 : Value.beq k0 key = true
    · simp only [lookGet, if_pos h0, Option.some.injEq] at h
      exact ⟨k0, by rw [h]; exact List.mem_cons_self _ _⟩
    · simp only [lookGet, if_neg h0] at h
      obtain ⟨k, hk⟩ := ih h
      exact ⟨k, List.mem_cons_of_mem _ hk⟩

theorem getD_map_of_lt (f : Value → Value) (l : List Value) (i : Nat)
    (h : i < l.length) (d d' : Value) : (l.map f).getD i d = f (l.getD i d') := by
  induction l generalizing i with
  | nil => simp at h
  | cons x rest ih =>
    cases i with
    | zero => simp [List.getD]
    | succ j =>
      simp only [List.map, List.getD_cons_succ]
      exact ih j (by simpa using h) 

/-- Every value stored in the tcgplayer lookup satisfies the guard under which
    it was stored (data.py 219-222). -/
theorem tcg_lookup_of_guarded (s : List Value) :
    ∀ p ∈ tcg_lookup_of s, tcgEntryGuard p.2 = true := by
  have aux : ∀ (rows : List Value) (acc : List (Value × Value)),
      (∀ p ∈ acc, tcgEntryGuard p.2 = true) →
      ∀ p ∈ rows.foldl
        (fun acc row =>
          if (pyGet row "id" (Value.vStr "")).truthy then
            if tcgEntryGuard (pyGet row "tcgplayer" Value.vNone) then
              lookSet acc (pyGet row "id" (Value.vStr "")) (pyGet row "tcgplayer" Value.vNone)
            else acc
          else acc) acc, tcgEntryGuard p.2 = true := by
    intro rows
    induction rows with
    | nil => intro acc hacc p hp; exact hacc p hp
    | cons row rest ih =>
      intro acc hacc p hp
      simp only [List.foldl_cons] at hp
      refine ih _ ?_ p hp
      intro q hq
      by_cases h1 : (pyGet row "id" (Value.vStr "")).truthy = true
      · by_cases h2 : tcgEntryGuard (pyGet row "tcgplayer" Value.vNone) = true
        · rw [if_pos h1, if_pos h2] at hq
          rcases mem_lookSet _ _ _ _ hq with h | h
          · exact hacc q h
          · rw [h]; exact h2
        · rw [if_pos h1, if_neg h2] at hq
          exact hacc q hq
      · rw [if_neg h1] at hq
        exact hacc q hq
  exact aux s [] (by intro p hp; simp at hp)

/-- A guarded tcgplayer entry is a truthy dict whose prices entry is truthy:
    exactly the condition under which _merge_tcg keeps a value. -/
theorem tcgEntryGuard_cases (w : Value) (h : tcgEntryGuard w = true) :
    ∃ e, w = Value.vDict e ∧
      ((Value.vDict e).truthy && ((dget e "prices").getD (Value.vList [])).truthy) = true := by
  cases w with
  | vDict e =>
    refine ⟨e, rfl, ?_⟩
    simp only [tcgEntryGuard] at h
    by_cases ht : (Value.vDict e).truthy = true
    · rw [if_pos ht] at h
      rw [ht, Bool.true_and]
      cases hp : (dget e "prices").getD (Value.vList []) with
      | vDict pd => rw [hp] at h; simpa [Value.truthy] using h
      | vList ps => rw [hp] at h; simpa [Value.truthy] using h
      | vNone => rw [hp] at h; simp at h
      | vBool b => rw [hp] at h; simp at h
      | vInt n => rw [hp] at h; simp at h
      | vFloat q => rw [hp] at h; simp at h
      | vStr t => rw [hp] at h; simp at h
    · rw [if_neg ht] at h; exact absurd h (by simp)
  | vNone => simp [tcgEntryGuard] at h
  | vBool b => simp [tcgEntryGuard] at h
  | vInt n => simp [tcgEntryGuard] at h
  | vFloat q => simp [tcgEntryGuard] at h
  | vStr t => simp [tcgEntryGuard] at h
  | vList xs => simp [tcgEntryGuard] at h

/-- Discriminator for mapping values. -/
def Value.isDictV : Value → Bool
  | .vDict _ => true
  | _ => false

theorem isDictV_dict (v : Value) (h : v.isDictV = true) :
    ∃ e, v = Value.vDict e := by
  cases v with
  | vDict e => exact ⟨e, rfl⟩
  | vNone => simp [Value.isDictV] at h
  | vBool b => simp [Value.isDictV] at h
  | vInt n => simp [Value.isDictV] at h
  | vFloat q => simp [Value.isDictV] at h
  | vStr s => simp [Value.isDictV] at h
  | vList xs => simp [Value.isDictV] at h

theorem merge_tcg_eq_of_dict (tcgL : List (Value × Value)) (row : Value)
    (e : List (String × Value))
    (hex : pyGet row "tcgplayer" Value.vNone = Value.vDict e) :
    _merge_tcg tcgL row =
      if ((Value.vDict e).truthy && ((dget e "prices").getD (Value.vList [])).truthy) = true
      then Value.vDict e
      else (lookGet tcgL (pyGet row "id" (Value.vStr ""))).getD (Value.vDict e) := by
  simp only [_merge_tcg, hex]

theorem merge_tcg_eq_of_not_dict (tcgL : List (Value × Value)) (row : Value)
    (h : (pyGet row "tcgplayer" Value.vNone).isDictV = false) :
    _merge_tcg tcgL row =
      (lookGet tcgL (pyGet row "id" (Value.vStr ""))).getD
        (pyGet row "tcgplayer" Value.vNone) := by
  cases hex : pyGet row "tcgplayer" Value.vNone with
  | vDict e => rw [hex] at h; simp [Value.isDictV] at h
  | vNone => simp only [_merge_tcg, hex]
  | vBool b => simp only [_merge_tcg, hex]
  | vInt n => simp only [_merge_tcg, hex]
  | vFloat q => simp only [_merge_tcg, hex]
  | vStr s => simp only [_merge_tcg, hex]
  | vList xs => simp only [_merge_tcg, hex]

/-- The merged tcgplayer value is either a dict that the merge condition
    keeps, or — when the lookup misses — the unchanged existing value, which
    the merge condition does not keep. -/
theorem merge_tcg_shape (tcgL : List (Value × Value)) (row : Value)
    (hg : ∀ p ∈ tcgL, tcgEntryGuard p.2 = true) :
    (∃ e, _merge_tcg tcgL row = Value.vDict e ∧
      ((Value.vDict e).truthy && ((dget e "prices").getD (Value.vList [])).truthy) = true) ∨
    (lookGet tcgL (pyGet row "id" (Value.vStr "")) = Option.none ∧
     _merge_tcg tcgL row = pyGet row "tcgplayer" Value.vNone ∧
     (∀ e, _merge_tcg tcgL row = Value.vDict e →
        ((Value.vDict e).truthy && ((dget e "prices").getD (Value.vList [])).truthy) = false)) := by
  by_cases hd : (pyGet row "tcgplayer" Value.vNone).isDictV = true
  · obtain ⟨e, hex⟩ := isDictV_dict _ hd
    by_cases hc :
        ((Value.vDict e).truthy && ((dget e "prices").getD (Value.vList [])).truthy) = true
    · left
      exact ⟨e, by rw [merge_tcg_eq_of_dict tcgL row e hex, if_pos hc], hc⟩
    · cases hlk : lookGet tcgL (pyGet row "id" (Value.vStr "")) with
      | some w =>
        obtain ⟨k, hk⟩ := lookGet_mem _ _ _ hlk
        obtain ⟨e2, he2, hc2⟩ := tcgEntryGuard_cases w (hg (k, w) hk)
        left
        refine ⟨e2, ?_, hc2⟩
        rw [merge_tcg_eq_of_dict tcgL row e hex, if_neg hc, hlk, Option.getD_some, he2]
      | none =>
        right
        have hv : _merge_tcg tcgL row = Value.vDict e := by
          rw [merge_tcg_eq_of_dict tcgL row e hex, if_neg hc, hlk, Option.getD_none]
        refine ⟨rfl, by rw [hv, hex], ?_⟩
        intro e0 h0
        rw [hv] at h0
        injection h0 with h0
        subst h0
        simpa using hc
  · have hd2 : (pyGet row "tcgplayer" Value.vNone).isDictV = false := by
      simpa using hd
    cases hlk : lookGet tcgL (pyGet row "id" (Value.vStr "")) with
    | some w =>
      obtain ⟨k, hk⟩ := lookGet_mem _ _ _ hlk
      obtain ⟨e2, he2, hc2⟩ := tcgEntryGuard_cases w (hg (k, w) hk)
      left
      refine ⟨e2, ?_, hc2⟩
      rw [merge_tcg_eq_of_not_dict tcgL row hd2, hlk, Option.getD_some, he2]
    | none =>
      right
      have hv : _merge_tcg tcgL row = pyGet row "tcgplayer" Value.vNone := by
        rw [merge_tcg_eq_of_not_dict tcgL row hd2, hlk, Option.getD_none]
      refine ⟨rfl, hv, ?_⟩
      intro e0 h0
      rw [hv] at h0
      rw [h0] at hd2
      simp [Value.isDictV] at hd2

/-- Applying _merge_tcg to a row that already carries the merged tcgplayer
    value (and the same id) reproduces that value. -/
theorem merge_tcg_stable (tcgL : List (Value × Value))
    (hg : ∀ p ∈ tcgL, tcgEntryGuard p.2 = true) (row row2 : Value)
    (hid : pyGet row2 "id" (Value.vStr "") = pyGet row "id" (Value.vStr ""))
    (htc : pyGet row2 "tcgplayer" Value.vNone = _merge_tcg tcgL row) :
    _merge_tcg tcgL row2 = _merge_tcg tcgL row := by
  rcases merge_tcg_shape tcgL row hg with ⟨e, hv, hc⟩ | ⟨hnone, hv, hcond⟩
  · rw [hv] at htc
    rw [merge_tcg_eq_of_dict tcgL row2 e htc, if_pos hc, hv]
  · by_cases hd : (_merge_tcg tcgL row).isDictV = true
    · obtain ⟨e, he⟩ := isDictV_dict _ hd
      have hcf := hcond e he
      rw [he] at htc
      rw [merge_tcg_eq_of_dict tcgL row2 e htc, if_neg (by rw [hcf]; simp), hid, hnone,
        Option.getD_none, he]
    · have hd2 : (pyGet row2 "tcgplayer" Value.vNone).isDictV = false := by
        rw [htc]
        simpa using hd
      rw [merge_tcg_eq_of_not_dict tcgL row2 hd2, hid, hnone, Option.getD_none, htc]

/-- Applying _merge_cm to a row that already carries the merged cardmarket
    value (and the same id) reproduces that value. -/
theorem merge_cm_stable (cmL : List (Value × Value)) (row row2 : Value)
    (hid : pyGet row2 "id" (Value.vStr "") = pyGet row "id" (Value.vStr ""))
    (hcm : pyGet row2 "cardmarket" Value.vNone = _merge_cm cmL row) :
    _merge_cm cmL row2 = _merge_cm cmL row := by
  simp only [_merge_cm, hid, hcm]
  cases hlk : lookGet cmL (pyGet row "id" (Value.vStr "")) with
  | some w => simp [_merge_cm, hlk]
  | none => simp [_merge_cm, hlk]

/-- One full merge of a row: the tcgplayer column is rewritten first, then the
    cardmarket column reads the updated row (data.py 240-243, rowwise). -/
def mergeRow (tcgL cmL : List (Value × Value)) (r : Value) : Value :=
  vset (vset r "tcgplayer" (_merge_tcg tcgL r)) "cardmarket"
    (_merge_cm cmL (vset r "tcgplayer" (_merge_tcg tcgL r)))

theorem enrich_of_empty_search (df s : List Value) (h : s.isEmpty = true) :
    _enrich_prices_via_search df s = df := by
  rw [_enrich_prices_via_search, if_pos h]

theorem enrich_of_empty_lookup (df s : List Value)
    (h : (price_lookup_of s).isEmpty = true) :
    _enrich_prices_via_search df s = df := by
  rw [_enrich_prices_via_search]
  by_cases h1 : s.isEmpty = true
  · rw [if_pos h1]
  · rw [if_neg h1, if_pos h]

theorem enrich_eq_map (df s : List Value) (h1 : ¬ s.isEmpty = true)
    (h2 : ¬ (price_lookup_of s).isEmpty = true) :
    _enrich_prices_via_search df s =
      df.map (mergeRow (tcg_lookup_of s) (cm_lookup_of s)) := by
  rw [_enrich_prices_via_search, if_neg h1, if_neg h2, List.map_map]
  rfl

theorem mergeRow_idem (tcgL cmL : List (Value × Value))
    (hg : ∀ p ∈ tcgL, tcgEntryGuard p.2 = true) (r : Value) :
    mergeRow tcgL cmL (mergeRow tcgL cmL r) = mergeRow tcgL cmL r := by
  cases r with
  | vDict kvs =>
    have hne2 : "cardmarket" ≠ "tcgplayer" := by decide
    have hne3 : "tcgplayer" ≠ "id" := by decide
    have hne4 : "cardmarket" ≠ "id" := by decide
    set r0 : Value := Value.vDict kvs with hr0
    set tv := _merge_tcg tcgL r0 with htv
    set r1 := vset r0 "tcgplayer" tv with hr1
    set cv := _merge_cm cmL r1 with hcv
    set r2 := vset r1 "cardmarket" cv with hr2
    have hr1d : r1 = Value.vDict (dset kvs "tcgplayer" tv) := by rw [hr1, hr0]; rfl
    have hr2d : r2 = Value.vDict (dset (dset kvs "tcgplayer" tv) "cardmarket" cv) := by
      rw [hr2, hr1d]; rfl
    have hid2 : pyGet r2 "id" (Value.vStr "") = pyGet r0 "id" (Value.vStr "") := by
      rw [hr2, hr1]
      rw [pyGet_vset_ne _ _ _ _ _ hne4, pyGet_vset_ne _ _ _ _ _ hne3]
    have htc2 : pyGet r2 "tcgplayer" Value.vNone = tv := by
      rw [hr2, pyGet_vset_ne _ _ _ _ _ hne2, hr1, hr0]
      exact pyGet_vset_self kvs _ _ _
    have hmt : _merge_tcg tcgL r2 = tv := by
      rw [htv]
      exact merge_tcg_stable tcgL hg r0 r2 hid2 (by rw [htc2, htv])
    have hfr2 : vset r2 "tcgplayer" tv = r2 := by
      rw [hr2d]
      refine vset_self _ _ _ ?_
      rw [dget_dset_ne _ _ _ _ hne2]
      exact dget_dset_self _ _ _
    have hid21 : pyGet r2 "id" (Value.vStr "") = pyGet r1 "id" (Value.vStr "") := by
      rw [hr2, pyGet_vset_ne _ _ _ _ _ hne4]
    have hcm2 : pyGet r2 "cardmarket" Value.vNone = cv := by
      rw [hr2, hr1d]
      exact pyGet_vset_self _ _ _ _
    have hmc : _merge_cm cmL r2 = cv := by
      rw [hcv]
      exact merge_cm_stable cmL r1 r2 hid21 (by rw [hcm2, hcv])
    have hgr2 : vset r2 "cardmarket" cv = r2 := by
      rw [hr2d]
      exact vset_self _ _ _ (dget_dset_self _ _ _)
    show mergeRow tcgL cmL r2 = r2
    rw [mergeRow, hmt, hfr2, hmc, hgr2]
  | vNone => rfl
  | vBool b => rfl
  | vInt n => rfl
  | vFloat q => rfl
  | vStr s => rfl
  | vList xs => rfl

theorem pyGet_mergeRow_id (tcgL cmL : List (Value × Value)) (r : Value) :
    pyGet (mergeRow tcgL cmL r) "id" Value.vNone = pyGet r "id" Value.vNone := by
  cases r with
  | vDict kvs =>
    rw [mergeRow, pyGet_vset_ne _ _ _ _ _ (by decide : "cardmarket" ≠ "id"),
      pyGet_vset_ne _ _ _ _ _ (by decide : "tcgplayer" ≠ "id")]
  | vNone => rfl
  | vBool b => rfl
  | vInt n => rfl
  | vFloat q => rfl
  | vStr s => rfl
  | vList xs => rfl

/-- Claim C8 (amended): the enrichment merge never reduces the number of
    records and never changes any record id, and re-running it on its own
    output with the same search results is a no-op on the records; however the
    all-zero trigger condition can remain true on the enriched output (the
    search lookup may supply no extractable price for any batch id), in which
    case a second reconciliation pass does issue a further external search
    call — the no-further-external-call part of the claim does not hold. -/
theorem reconcile_idempotent_amended (df s : List Value) :
    (_enrich_prices_via_search df s).length = df.length ∧
    (_enrich_prices_via_search df s).map (fun r => pyGet r "id" Value.vNone)
      = df.map (fun r => pyGet r "id" Value.vNone) ∧
    _enrich_prices_via_search (_enrich_prices_via_search df s) s
      = _enrich_prices_via_search df s := by
  by_cases h1 : s.isEmpty = true
  · rw [enrich_of_empty_search df s h1, enrich_of_empty_search df s h1]
    exact ⟨rfl, rfl, rfl⟩
  · by_cases h2 : (price_lookup_of s).isEmpty = true
    · rw [enrich_of_empty_lookup df s h2, enrich_of_empty_lookup df s h2]
      exact ⟨rfl, rfl, rfl⟩
    · refine ⟨?_, ?_, ?_⟩
      · rw [enrich_eq_map df s h1 h2, List.length_map]
      · rw [enrich_eq_map df s h1 h2, List.map_map]
        refine List.map_congr_left ?_
        intro r _
        exact pyGet_mergeRow_id _ _ r
      · rw [enrich_eq_map df s h1 h2, enrich_eq_map _ s h1 h2, List.map_map]
        refine List.map_congr_left ?_
        intro r _
        exact mergeRow_idem _ _ (tcg_lookup_of_guarded s) r

/-- A record with no prices at all. -/
def c8Rec : Value := .vDict [("id", .vStr "a")]

/-- A search result whose only card has a different id, with an extractable
    TCG_Prices price (so the price lookup is non-empty). -/
def c8Search : List Value :=
  [.vDict [("id", .vStr "b"), ("TCG_Prices", .vList [.vDict [("market_price", .vInt 5)]])]]

def c8SearchO : Value → List Value := fun _ => c8Search

def c8SetInfo : Value := .vDict [("name", .vStr "S")]

/-- The enriched output of the C8 counterexample run: the lookup matched no
    batch id, so the records gained only null tcgplayer / cardmarket columns
    and still extract to zero. -/
def c8Out : List Value :=
  [.vDict [("id", .vStr "a"), ("tcgplayer", .vNone), ("cardmarket", .vNone)]]

/-- Counterexample to claim C8 as stated: reconciliation of the all-zero
    batch [c8Rec] produces an output batch whose price sum is still zero, so
    the all-zero trigger condition is still true on the output and a second
    pass invokes the external search again (the invocation flag is true both
    times). The records themselves do not change further, but the claimed
    reason — the trigger condition being false the second time — fails. -/
theorem reconcile_second_pass_counterexample :
    postProcess c8SearchO c8SetInfo [c8Rec] = some (c8Out, true) ∧
    sumPrices c8Out = 0 ∧
    postProcess c8SearchO c8SetInfo c8Out = some (c8Out, true) := by
  have hsum1 : sumPrices [c8Rec] = 0 := by
    simp only [sumPrices, extract_price_series, List.map, List.sum_cons, List.sum_nil, add_zero]
    decide
  have hsum2 : sumPrices c8Out = 0 := by
    simp only [sumPrices, extract_price_series, c8Out, List.map, List.sum_cons, List.sum_nil,
      add_zero]
    decide
  refine ⟨?_, hsum2, ?_⟩
  · simp only [postProcess, hsum1]
    rfl
  · simp only [postProcess, hsum2]
    rfl

/-- The all-zero record of the C1 counterexample: its cardmarket substructure
    holds the present price avg=12, but in a dict shape the extractor does not
    reach, so the whole batch extracts to zero and reconciliation runs. -/
def c1Rec : Value :=
  .vDict [("id", .vStr "c1"),
          ("cardmarket", .vDict [("prices", .vDict [("avg", .vInt 12)])])]

/-- Search results for the C1 counterexample: an entry for the same id c1
    with an extractable price and a different cardmarket substructure. -/
def c1Search : List Value :=
  [.vDict [("id", .vStr "c1"),
           ("TCG_Prices", .vList [.vDict [("market_price", .vInt 5)]]),
           ("cardmarket", .vDict [("prices", .vList [.vDict [("avg", .vInt 7)]])])]]

/-- Counterexample to claim C1 as stated: the batch [c1Rec] is all-zero, the
    record carries the present price 12 (numeric and positive) inside its own
    cardmarket substructure, yet after the merge the cardmarket substructure
    is the search lookup entry, not the original — the cardmarket merge
    overwrites unconditionally. -/
theorem enrich_overwrites_cardmarket_counterexample :
    sumPrices [c1Rec] = 0 ∧
    pyGet c1Rec "cardmarket" Value.vNone
      = Value.vDict [("prices", Value.vDict [("avg", Value.vInt 12)])] ∧
    numQ (Value.vInt 12) = some 12 ∧ (0 : ℚ) < 12 ∧
    pyGet ((_enrich_prices_via_search [c1Rec] c1Search).getD 0 Value.vNone)
        "cardmarket" Value.vNone
      = Value.vDict [("prices", Value.vList [Value.vDict [("avg", Value.vInt 7)]])] ∧
    Value.vDict [("prices", Value.vList [Value.vDict [("avg", Value.vInt 7)]])] ≠
      Value.vDict [("prices", Value.vDict [("avg", Value.vInt 12)])] := by
  refine ⟨?_, rfl, rfl, by norm_num, rfl, by simp⟩
  simp only [sumPrices, extract_price_series, List.map, List.sum_cons, List.sum_nil, add_zero]
  decide

/-- Claim C1 (amended): during the enrichment merge the tcgplayer
    substructure of a record is left unchanged whenever it is a truthy dict
    whose prices entry is truthy — in particular whenever it carries a present
    price under prices — even when the search lookup holds an entry for the
    record id; the cardmarket substructure, however, is replaced by the search
    lookup entry for the record id whenever the lookup holds one,
    unconditionally, and keeps its old value only on a lookup miss. -/
theorem enrich_merge_amended :
    (∀ (df s : List Value) (i : Nat), i < df.length →
      ∀ e, pyGet (df.getD i Value.vNone) "tcgplayer" Value.vNone = Value.vDict e →
        ((Value.vDict e).truthy && ((dget e "prices").getD (Value.vList [])).truthy) = true →
        pyGet ((_enrich_prices_via_search df s).getD i Value.vNone) "tcgplayer" Value.vNone
          = Value.vDict e) ∧
    (∀ (df s : List Value) (i : Nat) (rkvs : List (String × Value)), i < df.length →
      df.getD i Value.vNone = Value.vDict rkvs →
      ¬ s.isEmpty = true → ¬ (price_lookup_of s).isEmpty = true →
      pyGet ((_enrich_prices_via_search df s).getD i Value.vNone) "cardmarket" Value.vNone
        = (lookGet (cm_lookup_of s)
            (pyGet (Value.vDict rkvs) "id" (Value.vStr ""))).getD
            (pyGet (Value.vDict rkvs) "cardmarket" Value.vNone)) := by
  constructor
  · intro df s i hi e hex hc
    by_cases h1 : s.isEmpty = true
    · rw [enrich_of_empty_search df s h1]
      exact hex
    · by_cases h2 : (price_lookup_of s).isEmpty = true
      · rw [enrich_of_empty_lookup df s h2]
        exact hex
      · rw [enrich_eq_map df s h1 h2, getD_map_of_lt _ _ _ hi _ Value.vNone]
        cases hrow : df.getD i Value.vNone with
        | vDict rkvs =>
          rw [hrow] at hex
          have hr1 : vset (Value.vDict rkvs) "tcgplayer"
              (_merge_tcg (tcg_lookup_of s) (Value.vDict rkvs))
              = Value.vDict (dset rkvs "tcgplayer"
                  (_merge_tcg (tcg_lookup_of s) (Value.vDict rkvs))) := rfl
          rw [mergeRow, pyGet_vset_ne _ _ _ _ _ (by decide : "cardmarket" ≠ "tcgplayer"), hr1]
          simp only [pyGet, dget_dset_self, Option.getD_some]
          rw [merge_tcg_eq_of_dict _ _ e hex, if_pos hc]
        | vNone => rw [hrow] at hex; exact absurd hex (by simp [pyGet])
        | vBool b => rw [hrow] at hex; exact absurd hex (by simp [pyGet])
        | vInt n => rw [hrow] at hex; exact absurd hex (by simp [pyGet])
        | vFloat q => rw [hrow] at hex; exact absurd hex (by simp [pyGet])
        | vStr t => rw [hrow] at hex; exact absurd hex (by simp [pyGet])
        | vList xs => rw [hrow] at hex; exact absurd hex (by simp [pyGet])
  · intro df s i rkvs hi hrow h1 h2
    rw [enrich_eq_map df s h1 h2, getD_map_of_lt _ _ _ hi _ Value.vNone, hrow]
    have hr1 : vset (Value.vDict rkvs) "tcgplayer"
        (_merge_tcg (tcg_lookup_of s) (Value.vDict rkvs))
        = Value.vDict (dset rkvs "tcgplayer"
            (_merge_tcg (tcg_lookup_of s) (Value.vDict rkvs))) := rfl
    rw [mergeRow, hr1, pyGet_vset_self, _merge_cm, ← hr1,
      pyGet_vset_ne _ _ _ _ _ (by decide : "tcgplayer" ≠ "id"),
      pyGet_vset_ne _ _ _ _ _ (by decide : "tcgplayer" ≠ "cardmarket")]

/-- Witness for C1 (amended): on the record exC5, whose tcgplayer substructure
    is a truthy dict with a truthy prices entry, the merge against the
    c1Search results leaves the tcgplayer substructure unchanged. -/
theorem enrich_merge_amended_witness :
    pyGet ((_enrich_prices_via_search [exC5] c1Search).getD 0 Value.vNone)
        "tcgplayer" Value.vNone
      = Value.vDict [("prices", Value.vDict [("market", Value.vInt 9)])] :=
  enrich_merge_amended.1 [exC5] c1Search 0 (by simp) _ rfl (by decide)

/-- Claim C7 (amended): the search-based enrichment pass is invoked on a
    fetched batch if and only if the sum of the extracted prices over the
    batch is exactly zero AND the set name taken from the response envelope is
    truthy; an all-zero batch with a missing or empty set name is not
    enriched, and a batch with any positive extracted price is never
    enriched. -/
theorem enrichment_trigger_amended (searchO : Value → List Value) (set_info : Value)
    (cards out : List Value) (fl : Bool)
    (h : postProcess searchO set_info cards = some (out, fl)) :
    fl = true ↔ (sumPrices cards = 0 ∧ setNameTruthy set_info = true) := by
  by_cases hsum : sumPrices cards = 0
  · cases set_info with
    | vDict sk =>
      by_cases hname : ((dget sk "name").getD (Value.vStr "")).truthy = true
      · simp only [postProcess, if_pos hsum] at h
        rw [if_pos hname] at h
        injection h with h1
        have hfl : fl = true := (congrArg Prod.snd h1).symm
        simp [hfl, hsum, setNameTruthy, hname]
      · simp only [postProcess, if_pos hsum] at h
        rw [if_neg hname] at h
        injection h with h1
        have hfl : fl = false := (congrArg Prod.snd h1).symm
        simp only [hfl, setNameTruthy]
        simp [hname]
    | vNone => simp only [postProcess, if_pos hsum] at h; exact Option.noConfusion h
    | vBool b => simp only [postProcess, if_pos hsum] at h; exact Option.noConfusion h
    | vInt n => simp only [postProcess, if_pos hsum] at h; exact Option.noConfusion h
    | vFloat q => simp only [postProcess, if_pos hsum] at h; exact Option.noConfusion h
    | vStr t => simp only [postProcess, if_pos hsum] at h; exact Option.noConfusion h
    | vList xs => simp only [postProcess, if_pos hsum] at h; exact Option.noConfusion h
  · simp only [postProcess, if_neg hsum] at h
    injection h with h1
    have hfl : fl = false := (congrArg Prod.snd h1).symm
    simp [hfl, hsum]

/-- The record of the C7 runs: an all-zero single-record batch. -/
def c7Rec : Value := .vDict [("id", .vStr "x")]

/-- Counterexample to claim C7 as stated: the batch [c7Rec] sums to zero, yet
    with an empty set envelope (no name) the post-pagination step does not
    invoke the search-based enrichment — the flag is false — so invocation is
    not equivalent to the zero-sum condition alone. -/
theorem enrichment_trigger_counterexample :
    sumPrices [c7Rec] = 0 ∧
    postProcess (fun _ => []) (Value.vDict []) [c7Rec] = some ([c7Rec], false) := by
  have hsum : sumPrices [c7Rec] = 0 := by
    simp only [sumPrices, extract_price_series, List.map, List.sum_cons, List.sum_nil, add_zero]
    decide
  refine ⟨hsum, ?_⟩
  simp only [postProcess, hsum]
  rfl

/-- Witness for C7 (amended): the iff is instantiated on the concrete
    all-zero batch with a nameless set envelope, where the flag is false. -/
theorem enrichment_trigger_amended_witness :
    postProcess (fun _ => []) (Value.vDict []) [c7Rec] = some ([c7Rec], false) ∧
    (false = true ↔ (sumPrices [c7Rec] = 0 ∧ setNameTruthy (Value.vDict []) = true)) := by
  have hsum : sumPrices [c7Rec] = 0 := by
    simp only [sumPrices, extract_price_series, List.map, List.sum_cons, List.sum_nil, add_zero]
    decide
  have hpp : postProcess (fun _ => []) (Value.vDict []) [c7Rec] = some ([c7Rec], false) := by
    simp only [postProcess, hsum]
    rfl
  exact ⟨hpp, enrichment_trigger_amended (fun _ => []) (Value.vDict []) [c7Rec] [c7Rec] false hpp⟩

/- ============================================================
   PAGINATED FETCH — data.py lines 113-186 (fetch_set_cards).
   The HTTP layer is an oracle mapping (identifier, page) to the outcome of
   the retried fetch of line 145: either a re-raised exception or a returned
   value (Value.vNone when the retried operation returned None). -/

/-- Outcome of the retried page fetch at data.py 145-147. -/
inductive PageResult where
  | err : PageResult
  | ret : Value → PageResult

/-- Outcome of the pagination of one identifier: the caught exception of
    data.py 169-170, or a normal exit with the accumulated cards and the last
    set envelope. -/
inductive RunOutcome where
  | exn : RunOutcome
  | ok : List Value → Value → RunOutcome

/-- Python iteration over the cards value: a list yields its elements, a
    string its characters, a dict its keys; other values are not iterable
    and raise. -/
def iterItems : Value → Option (List Value)
  | .vList xs => some xs
  | .vStr s => some (s.data.map (fun c => Value.vStr (String.mk [c])))
  | .vDict kvs => some (kvs.map (fun kv => Value.vStr kv.1))
  | _ => Option.none

/-- data.py 157-159: attach the set metadata to one card; a non-mapping card
    or a non-mapping set envelope raises (modelled none). -/
def attachMeta (set_info : Value) (ident : String) (card : Value) : Option Value :=
  match set_info, card with
  | .vDict sk, .vDict ckvs =>
    some (Value.vDict (dset (dset ckvs "set_name" ((dget sk "name").getD (Value.vStr "")))
      "set_code_val" ((dget sk "set_code").getD (Value.vStr ident))))
  | _, _ => Option.none

def attachAll (set_info : Value) (ident : String) : List Value → Option (List Value)
  | [] => some []
  | c :: cs =>
    match attachMeta set_info ident c, attachAll set_info ident cs with
    | some c2, some cs2 => some (c2 :: cs2)
    | _, _ => Option.none

/-- The pagination loop of data.py 134-167 for one identifier, driven by the
    page oracle. The fuel bounds how many pages the model unfolds; on
    exhaustion Option.none is returned (the source would keep requesting
    pages). A falsy response body ends pagination keeping the accumulated
    cards (line 148-149); an empty falsy cards value on page 1 ends it so the
    next identifier can be tried (line 154-155); a non-mapping body, a
    non-iterable cards value, a non-mapping card or set envelope, a
    non-mapping pagination value or a non-numeric total_pages all raise and
    are caught as the exception outcome. -/
def pageLoop (oracle : String → Nat → PageResult) (ident : String) :
    Nat → Nat → List Value → Value → Option RunOutcome
  | 0, _, _, _ => Option.none
  | fuel + 1, page, acc, si =>
    match oracle ident page with
    | .err => some RunOutcome.exn
    | .ret data =>
      if data.truthy = false then some (RunOutcome.ok acc si)
      else
        match data with
        | .vDict dk =>
          if ((dget dk "cards").getD (Value.vList [])).truthy = false ∧ page = 1 then
            some (RunOutcome.ok acc ((dget dk "set").getD (Value.vDict [])))
          else
            match iterItems ((dget dk "cards").getD (Value.vList [])) with
            | Option.none => some RunOutcome.exn
            | some items =>
              match attachAll ((dget dk "set").getD (Value.vDict [])) ident items with
              | Option.none => some RunOutcome.exn
              | some items2 =>
                match (dget dk "pagination").getD (Value.vDict []) with
                | .vDict pk =>
                  match numQ ((dget pk "total_pages").getD (Value.vInt 1)) with
                  | some tp =>
                    if (page : ℚ) ≥ tp then
                      some (RunOutcome.ok (acc ++ items2)
                        ((dget dk "set").getD (Value.vDict [])))
                    else
                      pageLoop oracle ident fuel (page + 1) (acc ++ items2)
                        ((dget dk "set").getD (Value.vDict []))
                  | Option.none => some RunOutcome.exn
                | _ => some RunOutcome.exn
        | _ => some RunOutcome.exn

/-- data.py 128-170: run the pagination of one identifier from page 1 with an
    empty accumulator and an empty set envelope. -/
def runIdent (oracle : String → Nat → PageResult) (ident : String) (fuel : Nat) :
    Option RunOutcome :=
  pageLoop oracle ident fuel 1 [] (Value.vDict [])

/-- data.py 117-124: the ordered identifier list; a falsy set_code is
    skipped, and set_id is tried only when truthy and different from
    set_code. -/
def identList (set_code : String) (set_id : Option String) : List String :=
  (if set_code ≠ "" then [set_code] else []) ++
    (match set_id with
     | Option.some t => if t ≠ "" ∧ t ≠ set_code then [t] else []
     | Option.none => [])

/-- Result of a completed fetch: the returned batch, whether the search-based
    enrichment was invoked, and the identifiers actually queried. -/
structure FetchResult where
  cards : List Value
  searched : Bool
  queried : List String

/-- Overall outcome of fetch_set_cards: fuel exhaustion of the model, an
    uncaught raise from the set-name read at line 178, or a returned batch. -/
inductive FetchOut where
  | spin : FetchOut
  | raised : FetchOut
  | done : FetchResult → FetchOut

def consIdent (i : String) : FetchOut → FetchOut
  | .done r => .done ⟨r.cards, r.searched, i :: r.queried⟩
  | o => o

/-- The identifier loop of data.py 128-186: an exception outcome or an empty
    batch moves to the next identifier; the first identifier with a non-empty
    batch is post-processed and returned; an exhausted identifier list yields
    the empty result of line 186. -/
def fetchList (oracle : String → Nat → PageResult) (searchO : Value → List Value)
    (fuel : Nat) : List String → FetchOut
  | [] => .done ⟨[], false, []⟩
  | i :: rest =>
    match runIdent oracle i fuel with
    | Option.none => .spin
    | some RunOutcome.exn => consIdent i (fetchList oracle searchO fuel rest)
    | some (RunOutcome.ok cards si) =>
      if cards.isEmpty = true then consIdent i (fetchList oracle searchO fuel rest)
      else
        match postProcess searchO si cards with
        | Option.none => .raised
        | some (out, fl) => .done ⟨out, fl, [i]⟩

/-- data.py 113-186: fetch the cards of a set. -/
def fetch_set_cards (oracle : String → Nat → PageResult) (searchO : Value → List Value)
    (set_code : String) (set_id : Option String) (fuel : Nat) : FetchOut :=
  fetchList oracle searchO fuel (identList set_code set_id)

/-- Claim C3 (amended): a page fetch that fails by exception after retries
    aborts the pagination of the current identifier with the caught-exception
    outcome — every page already collected for that identifier is discarded,
    not returned — and the identifier loop then moves on to the next
    identifier (or to the empty result); partial results are kept only when a
    page fetch yields a falsy response, which ends pagination normally. The
    exception itself never escapes: it is caught at data.py 169-170. -/
theorem page_failure_amended :
    (∀ (oracle : String → Nat → PageResult) (ident : String) (fuel page : Nat)
        (acc : List Value) (si : Value),
      oracle ident page = PageResult.err →
      pageLoop oracle ident (fuel + 1) page acc si = some RunOutcome.exn) ∧
    (∀ (oracle : String → Nat → PageResult) (searchO : Value → List Value)
        (fuel : Nat) (i : String) (rest : List String),
      runIdent oracle i fuel = some RunOutcome.exn →
      fetchList oracle searchO fuel (i :: rest)
        = consIdent i (fetchList oracle searchO fuel rest)) ∧
    (∀ (oracle : String → Nat → PageResult) (ident : String) (fuel page : Nat)
        (acc : List Value) (si : Value) (v : Value),
      oracle ident page = PageResult.ret v → v.truthy = false →
      pageLoop oracle ident (fuel + 1) page acc si = some (RunOutcome.ok acc si)) := by
  refine ⟨?_, ?_, ?_⟩
  · intro oracle ident fuel page acc si h
    simp only [pageLoop, h]
  · intro oracle searchO fuel i rest h
    simp only [fetchList, h]
  · intro oracle ident fuel page acc si v h hv
    simp only [pageLoop, h, hv]
    rfl

/-- A one-card first page for the C3 counterexample. -/
def c3Card : Value := .vDict [("name", .vStr "Pikachu")]

def c3Page1kvs : List (String × Value) :=
  [("cards", .vList [c3Card]),
   ("set", .vDict [("name", .vStr "SV1"), ("set_code", .vStr "sv1")]),
   ("pagination", .vDict [("total_pages", .vInt 2)])]

/-- An oracle whose page 1 succeeds with one card and two declared pages, and
    whose page 2 fails after retries. -/
def c3Oracle : String → Nat → PageResult :=
  fun _ page => if page = 1 then PageResult.ret (Value.vDict c3Page1kvs) else PageResult.err

/-- Counterexample to claim C3 as stated: page 1 of identifier sv1 collects a
    card and declares two pages, page 2 fails after retries; the claim says
    the collected page-1 cards are then returned as partial results, but the
    fetch returns the empty result — the partial page is discarded when the
    exception aborts the identifier. -/
theorem page_failure_counterexample :
    (dget c3Page1kvs "cards").getD (Value.vList []) = Value.vList [c3Card] ∧
    c3Oracle "sv1" 2 = PageResult.err ∧
    fetch_set_cards c3Oracle (fun _ => []) "sv1" Option.none 5
      = FetchOut.done ⟨[], false, ["sv1"]⟩ :=
  ⟨rfl, rfl, rfl⟩

/-- Witness for C3 (amended): the failing page 2 of the concrete oracle makes
    the pagination of sv1 end in the caught-exception outcome. -/
theorem page_failure_amended_witness :
    c3Oracle "sv1" 2 = PageResult.err ∧
    pageLoop c3Oracle "sv1" 4 2 [c3Card] (Value.vDict []) = some RunOutcome.exn :=
  ⟨rfl, page_failure_amended.1 c3Oracle "sv1" 3 2 [c3Card] (Value.vDict []) rfl⟩

/- ============================================================
   Preservation lemmas for the post-pagination step. -/

theorem dget_dropKey_ne (kvs : List (String × Value)) (k k' : String) (h : k ≠ k') :
    dget (dropKey kvs k) k' = dget kvs k' := by
  induction kvs with
  | nil => rfl
  | cons kv rest ih =>
    obtain ⟨k0, w⟩ := kv
    by_cases h0 : k0 = k
    · simp only [dropKey, if_pos h0, dget]
      rw [if_neg (by rw [h0]; exact h), ih]
    · simp only [dropKey, if_neg h0, dget]
      by_cases h1 : k0 = k'
      · rw [if_pos h1, if_pos h1]
      · rw [if_neg h1, if_neg h1, ih]

theorem pyGet_vdrop_ne (r : Value) (k k' : String) (d : Value) (h : k ≠ k') :
    pyGet (vdrop r k) k' d = pyGet r k' d := by
  cases r <;> simp [vdrop, pyGet]
  rw [dget_dropKey_ne _ _ _ h]

theorem withPriceCol_length (cards : List Value) :
    (withPriceCol cards).length = cards.length := by
  simp [withPriceCol]

theorem withPriceCol_ids (cards : List Value) :
    (withPriceCol cards).map (fun r => pyGet r "id" Value.vNone)
      = cards.map (fun r => pyGet r "id" Value.vNone) := by
  rw [withPriceCol, List.map_map]
  refine List.map_congr_left ?_
  intro r _
  exact pyGet_vset_ne r _ _ _ _ (by decide : "_price" ≠ "id")

theorem enrich_length (df s : List Value) :
    (_enrich_prices_via_search df s).length = df.length := by
  by_cases h1 : s.isEmpty = true
  · rw [enrich_of_empty_search df s h1]
  · by_cases h2 : (price_lookup_of s).isEmpty = true
    · rw [enrich_of_empty_lookup df s h2]
    · rw [enrich_eq_map df s h1 h2, List.length_map]

theorem enrich_ids (df s : List Value) :
    (_enrich_prices_via_search df s).map (fun r => pyGet r "id" Value.vNone)
      = df.map (fun r => pyGet r "id" Value.vNone) := by
  by_cases h1 : s.isEmpty = true
  · rw [enrich_of_empty_search df s h1]
  · by_cases h2 : (price_lookup_of s).isEmpty = true
    · rw [enrich_of_empty_lookup df s h2]
    · rw [enrich_eq_map df s h1 h2, List.map_map]
      refine List.map_congr_left ?_
      intro r _
      exact pyGet_mergeRow_id _ _ r

theorem dropPriceCol_ids (cards : List Value) :
    (cards.map (fun r => vdrop r "_price")).map (fun r => pyGet r "id" Value.vNone)
      = cards.map (fun r => pyGet r "id" Value.vNone) := by
  rw [List.map_map]
  refine List.map_congr_left ?_
  intro r _
  exact pyGet_vdrop_ne r _ _ _ (by decide : "_price" ≠ "id")

/-- The post-pagination step never changes the number of records and never
    changes any record id. -/
theorem postProcess_preserves (searchO : Value → List Value) (si : Value)
    (cards out : List Value) (fl : Bool)
    (h : postProcess searchO si cards = some (out, fl)) :
    out.length = cards.length ∧
    out.map (fun r => pyGet r "id" Value.vNone)
      = cards.map (fun r => pyGet r "id" Value.vNone) := by
  by_cases hsum : sumPrices cards = 0
  · cases si with
    | vDict sk =>
      by_cases hname : ((dget sk "name").getD (Value.vStr "")).truthy = true
      · simp only [postProcess, if_pos hsum] at h
        rw [if_pos hname] at h
        injection h with h1
        have hout : out
            = (_enrich_prices_via_search (withPriceCol cards)
                (searchO ((dget sk "name").getD (Value.vStr "")))).map
              (fun r => vdrop r "_price") := (congrArg Prod.fst h1).symm
        subst hout
        constructor
        · rw [List.length_map, enrich_length, withPriceCol_length]
        · rw [dropPriceCol_ids, enrich_ids, withPriceCol_ids]
      · simp only [postProcess, if_pos hsum] at h
        rw [if_neg hname] at h
        injection h with h1
        have hout : out = (withPriceCol cards).map (fun r => vdrop r "_price") :=
          (congrArg Prod.fst h1).symm
        subst hout
        constructor
        · rw [List.length_map, withPriceCol_length]
        · rw [dropPriceCol_ids, withPriceCol_ids]
    | vNone => simp only [postProcess, if_pos hsum] at h; exact Option.noConfusion h
    | vBool b => simp only [postProcess, if_pos hsum] at h; exact Option.noConfusion h
    | vInt n => simp only [postProcess, if_pos hsum] at h; exact Option.noConfusion h
    | vFloat q => simp only [postProcess, if_pos hsum] at h; exact Option.noConfusion h
    | vStr t => simp only [postProcess, if_pos hsum] at h; exact Option.noConfusion h
    | vList xs => simp only [postProcess, if_pos hsum] at h; exact Option.noConfusion h
  · simp only [postProcess, if_neg hsum] at h
    injection h with h1
    have hout : out = withPriceCol cards := (congrArg Prod.fst h1).symm
    subst hout
    exact ⟨withPriceCol_length cards, withPriceCol_ids cards⟩

/-- Claim C10: identifiers are tried in a fixed order — set_code first, then
    set_id only when truthy and different — the first identifier whose
    pagination collects a non-empty batch has that batch post-processed and
    returned without querying any later identifier (the queried list is just
    that identifier), an identifier ending in the caught exception or an
    empty batch is skipped, no identifiers or only failed identifiers yield
    the empty result, and the post-processing preserves the record count and
    every record id of the accumulated batch. -/
theorem fetch_identifier_order (oracle : String → Nat → PageResult)
    (searchO : Value → List Value) (fuel : Nat) :
    (∀ sc t, sc ≠ "" → t ≠ "" → t ≠ sc → identList sc (some t) = [sc, t]) ∧
    (∀ sc, sc ≠ "" → identList sc Option.none = [sc] ∧ identList sc (some sc) = [sc] ∧
      identList sc (some "") = [sc]) ∧
    fetch_set_cards oracle searchO "" Option.none fuel = FetchOut.done ⟨[], false, []⟩ ∧
    (∀ (i : String) (rest : List String) (cards : List Value) (si : Value)
        (out : List Value) (fl : Bool),
      runIdent oracle i fuel = some (RunOutcome.ok cards si) →
      cards.isEmpty = false →
      postProcess searchO si cards = some (out, fl) →
      fetchList oracle searchO fuel (i :: rest) = FetchOut.done ⟨out, fl, [i]⟩) ∧
    (∀ (i : String) (rest : List String),
      (runIdent oracle i fuel = some RunOutcome.exn ∨
        ∃ si, runIdent oracle i fuel = some (RunOutcome.ok [] si)) →
      fetchList oracle searchO fuel (i :: rest)
        = consIdent i (fetchList oracle searchO fuel rest)) ∧
    (∀ idl : List String,
      (∀ i ∈ idl, runIdent oracle i fuel = some RunOutcome.exn ∨
        ∃ si, runIdent oracle i fuel = some (RunOutcome.ok [] si)) →
      fetchList oracle searchO fuel idl = FetchOut.done ⟨[], false, idl⟩) ∧
    (∀ (si : Value) (cards out : List Value) (fl : Bool),
      postProcess searchO si cards = some (out, fl) →
      out.length = cards.length ∧
      out.map (fun r => pyGet r "id" Value.vNone)
        = cards.map (fun r => pyGet r "id" Value.vNone)) := by
  refine ⟨?_, ?_, rfl, ?_, ?_, ?_, ?_⟩
  · intro sc t hsc ht hts
    simp [identList, hsc, ht, hts]
  · intro sc hsc
    refine ⟨by simp [identList, hsc], by simp [identList, hsc], by simp [identList, hsc]⟩
  · intro i rest cards si out fl hrun hne hpp
    simp only [fetchList, hrun, hne, Bool.false_eq_true, if_false, hpp]
  · intro i rest h
    rcases h with h | ⟨si, h⟩
    · simp only [fetchList, h]
    · simp only [fetchList, h, List.isEmpty_nil, if_true]
  · intro idl hall
    induction idl with
    | nil => rfl
    | cons i rest ih =>
      have hrest := ih (fun j hj => hall j (List.mem_cons_of_mem i hj))
      rcases hall i (List.mem_cons_self i rest) with h | ⟨si, h⟩
      · simp only [fetchList, h, hrest, consIdent]
      · simp only [fetchList, h, List.isEmpty_nil, if_true, hrest, consIdent]
  · intro si cards out fl hpp
    exact postProcess_preserves searchO si cards out fl hpp

/-- The oracle of the C10 witness: one full page with a priced card and a
    single declared page. -/
def c10Oracle : String → Nat → PageResult :=
  fun _ _ => PageResult.ret (.vDict
    [("cards", .vList [.vDict [("id", .vStr "k"),
       ("TCG_Prices", .vList [.vDict [("market_price", .vInt 3)]])]]),
     ("set", .vDict [("name", .vStr "Base")]),
     ("pagination", .vDict [("total_pages", .vInt 1)])])

/-- The accumulated batch of the C10 witness run (card plus attached set
    metadata). -/
def c10Cards : List Value :=
  [.vDict [("id", .vStr "k"),
     ("TCG_Prices", .vList [.vDict [("market_price", .vInt 3)]]),
     ("set_name", .vStr "Base"), ("set_code_val", .vStr "b1")]]

def c10Si : Value := .vDict [("name", .vStr "Base")]

/-- Witness for C10: on the concrete oracle the first identifier b1 collects
    a non-empty priced batch, and the fetch returns it (post-processed, with
    the _price column still attached since the sum is nonzero) having queried
    only b1, never the second identifier. -/
theorem fetch_identifier_order_witness :
    runIdent c10Oracle "b1" 3 = some (RunOutcome.ok c10Cards c10Si) ∧
    fetchList c10Oracle (fun _ => []) 3 ["b1", "x2"]
      = FetchOut.done ⟨withPriceCol c10Cards, false, ["b1"]⟩ := by
  have hrun : runIdent c10Oracle "b1" 3 = some (RunOutcome.ok c10Cards c10Si) := rfl
  have hsum : sumPrices c10Cards = 3 := by
    simp only [sumPrices, extract_price_series, c10Cards, List.map, List.sum_cons,
      List.sum_nil, add_zero]
    decide
  have hsum0 : ¬ sumPrices c10Cards = 0 := by
    rw [hsum]
    norm_num
  have hpp : postProcess (fun _ => []) c10Si c10Cards
      = some (withPriceCol c10Cards, false) := by
    simp only [postProcess, if_neg hsum0]
  exact ⟨hrun,
    (fetch_identifier_order c10Oracle (fun _ => []) 3).2.2.2.1 "b1" ["x2"] c10Cards c10Si
      (withPriceCol c10Cards) false hrun rfl hpp⟩

/- ============================================================
   INTENT CLASSIFIER VALIDATION — data.py lines 788-800 (ai_chat). -/

/-- The fixed error string of data.py 792, 794 and 797. -/
def interpretErr : String := "Could not interpret your request. Please try again."

/-- data.py 793: membership of the request_type value in the fixed taxonomy;
    Python list membership uses equality, so only the four exact strings
    qualify. -/
def requestTypeOk (v : Value) : Bool :=
  match v with
  | .vStr s => s == "pokemon" || s == "set" || s == "total_cost" || s == "top_cards"
  | _ => false

/-- data.py 790-795: validate the JSON object extracted from the model
    response: a missing request_type or search_term key, or a request_type
    outside the taxonomy, yields the fixed error string; otherwise the parsed
    object itself is returned. The function is total — nothing is raised to
    the caller, matching the blanket handler at 799-800. -/
def validate_classification (parsed : List (String × Value)) : Value :=
  match dget parsed "request_type", dget parsed "search_term" with
  | some rt, some _ =>
    if requestTypeOk rt then Value.vDict parsed else Value.vStr interpretErr
  | _, _ => Value.vStr interpretErr

/-- Claim C9: whenever the JSON object extracted from the model response is
    missing the request_type key or the search_term key, or its request_type
    is outside the set pokemon, set, total_cost, top_cards, the classifier
    returns the fixed human-readable error string; the validation function is
    total, so no exception reaches the caller. -/
theorem classification_error_string (parsed : List (String × Value))
    (h : dget parsed "request_type" = Option.none ∨
      dget parsed "search_term" = Option.none ∨
      (∀ rt, dget parsed "request_type" = some rt → requestTypeOk rt = false)) :
    validate_classification parsed = Value.vStr interpretErr := by
  rcases h with h | h | h
  · simp [validate_classification, h]
  · cases h1 : dget parsed "request_type" with
    | none => simp [validate_classification, h1]
    | some rt => simp [validate_classification, h1, h]
  · cases h1 : dget parsed "request_type" with
    | none => simp [validate_classification, h1]
    | some rt =>
      cases h2 : dget parsed "search_term" with
      | none => simp [validate_classification, h1, h2]
      | some st => simp [validate_classification, h1, h2, h rt h1]

/-- Witness for C9: a parsed object whose request_type is the out-of-taxonomy
    string unknown yields the fixed error string. -/
theorem classification_error_string_witness :
    validate_classification
      [("request_type", Value.vStr "unknown"), ("search_term", Value.vStr "pikachu")]
      = Value.vStr interpretErr :=
  classification_error_string _ (Or.inr (Or.inr (by
    intro rt hrt
    have h2 : Option.some (Value.vStr "unknown") = some rt := hrt
    injection h2 with h3
    rw [← h3]
    decide)))
